import Mathlib

/-!
# Verification of the SoundFont2 / MIDI player (`grok4sf2midi.js`)

Shallow embedding of the core of `src/grok4sf2midi.js`:

* the recursive RIFF chunk reader (`readString`, `readChunk`, `parseRIFF`),
* the variable-length-quantity reader of the MIDI parser (`readVLQ`),
* the fixed-width record-table decoding of `SoundFontParser.parse`
  (instrument and preset header tables with bag/generator indirection),
* zone resolution (`SoundFontParser.getZonesForNote`),
* the per-note generator aggregation of `SoundFontPlayer.playNote`
  (effective-generator map, the generator `switch`, default modulators
  and the minimum-time clamp),
* the scheduling pass of `SoundFontPlayer.playMIDI`
  (channel-state initialization and note-on/note-off dispatch).

Modelling conventions:

* A JS `DataView` over an `ArrayBuffer` is modelled as a `List Nat` of
  bytes (each `< 256`).  A `DataView` accessor that would read out of
  the underlying buffer throws a `RangeError`; every reading primitive
  therefore returns an `Option`, `none` standing for the thrown
  exception.
* JS numbers are modelled as `Int` where the source only ever holds
  integers, and as `ℚ` where the source performs real division or
  `Math.pow`.  The only transcendental the claims touch is
  `Math.pow(2, c / 1200)`; the embedding `pow2cents` evaluates it with
  integer exponent `c / 1200` and is therefore exact precisely when
  `1200 ∣ c`.  Every default in the source is such a multiple
  (`-12000`), and every theorem below evaluates `pow2cents` only at
  multiples of `1200`.
* JS 32-bit bitwise semantics (`<<` in `readVLQ`) are modelled
  explicitly by `toInt32`.
-/

/-! ## Byte-buffer primitives (JS `DataView` accessors) -/

/-- `view.getUint8(i)`: `none` models the thrown `RangeError` on an
out-of-bounds read. -/
def getUint8 (buf : List Nat) (i : Nat) : Option Nat :=
  buf.get? i

/-- `view.getUint16(i, true)` (little endian). -/
def getUint16le (buf : List Nat) (i : Nat) : Option Nat := do
  let b0 ← getUint8 buf i
  let b1 ← getUint8 buf (i + 1)
  pure (b0 + 256 * b1)

/-- `view.getUint32(i, true)` (little endian). -/
def getUint32le (buf : List Nat) (i : Nat) : Option Nat := do
  let b0 ← getUint8 buf i
  let b1 ← getUint8 buf (i + 1)
  let b2 ← getUint8 buf (i + 2)
  let b3 ← getUint8 buf (i + 3)
  pure (b0 + 256 * b1 + 65536 * b2 + 16777216 * b3)

/-- `view.getInt16(i, true)`: two's-complement signed 16-bit value. -/
def getInt16le (buf : List Nat) (i : Nat) : Option Int := do
  let u ← getUint16le buf i
  pure (if u < 32768 then (u : Int) else (u : Int) - 65536)

/-- Character accumulation of the source's `readString`: read up to
`len` bytes starting at `off + i`, stopping (without error) at the
first zero byte; an out-of-range read before that throws. -/
def readStringChars (buf : List Nat) (off : Nat) : Nat → Nat → Option (List Char)
  | _, 0 => some []
  | i, len + 1 => do
    let b ← getUint8 buf (off + i)
    if b = 0 then
      pure []
    else do
      let rest ← readStringChars buf off (i + 1) len
      pure (Char.ofNat b :: rest)

/-- `readString(view, off, len)` from the source. -/
def readStringN (buf : List Nat) (off len : Nat) : Option String :=
  (readStringChars buf off 0 len).map List.asString

/-! ## RIFF chunk reader (`readChunk`, `parseRIFF`) -/

/-- The record returned by the source's `readChunk`:
`{id, size, offset: offset + 8, end: offset + 8 + size}`.
(`offset` is named `dataOff` and `end` is named `chend` here.) -/
structure RChunk where
  id : String
  size : Nat
  dataOff : Nat
  chend : Nat
  deriving DecidableEq

/-- `readChunk(view, offset)` from the source: read the 4-byte tag and
the 4-byte little-endian size (either read may throw). -/
def readChunk (buf : List Nat) (offset : Nat) : Option RChunk :=
  match readStringN buf offset 4, getUint32le buf (offset + 4) with
  | some id, some size => some ⟨id, size, offset + 8, offset + 8 + size⟩
  | _, _ => none

/-- The value stored in the `chunks` mapping of `parseRIFF`: a leaf
chunk stores `{dataOffset, size}`; a `RIFF`/`LIST` container stores the
recursively parsed mapping of its body. -/
inductive ChunkNode where
  | leaf (dataOffset size : Nat)
  | dir (entries : List (String × ChunkNode))

/-- JS object assignment `chunks[k] = v`: replace an existing key in
place, otherwise append.  (All keys in play are non-numeric strings, so
JS insertion order is preserved, as here.) -/
def jsSet (m : List (String × ChunkNode)) (k : String) (v : ChunkNode) :
    List (String × ChunkNode) :=
  if m.any (fun p => p.1 = k) then
    m.map (fun p => if p.1 = k then (k, v) else p)
  else
    m ++ [(k, v)]

/-- JS object lookup `chunks[k]`. -/
def jsGet (m : List (String × ChunkNode)) (k : String) : Option ChunkNode :=
  (m.find? (fun p => p.1 = k)).map (fun p => p.2)

/-- The `while (offset < end)` loop of `parseRIFF`, with the mapping
built so far as accumulator and the loop offset made explicit.  The
result also returns the final loop offset (in JS the loop variable),
which the coverage claims are about.  The `fuel` argument only bounds
the number of loop iterations/recursive descents: the JS loop always
terminates because each iteration advances `offset` by at least `8`,
and every theorem below either quantifies over `fuel` or supplies a
fuel larger than the number of chunks.  Fuel is consulted only when an
iteration actually starts, so a call with `offset ≥ end` returns the
accumulator at any fuel, exactly like the JS loop. -/
def parseRIFFaux (buf : List Nat) :
    Nat → List (String × ChunkNode) → Nat → Nat →
    Option (List (String × ChunkNode) × Nat)
  | 0, acc, offset, end_ =>
    if offset < end_ then none else some (acc, offset)
  | fuel + 1, acc, offset, end_ =>
    if offset < end_ then
      match readChunk buf offset with
      | none => none
      | some c =>
        let nxt := c.chend + c.size % 2
        if c.id = "RIFF" ∨ c.id = "LIST" then
          match readStringN buf c.dataOff 4 with
          | none => none
          | some formType =>
            match parseRIFFaux buf fuel [] (c.dataOff + 4) c.chend with
            | none => none
            | some (sub, _) =>
              parseRIFFaux buf fuel (jsSet acc formType (.dir sub)) nxt end_
        else
          parseRIFFaux buf fuel (jsSet acc c.id (.leaf c.dataOff c.size)) nxt end_
    else some (acc, offset)

/-- `parseRIFF(view, offset, end)` from the source.  A successful JS
parse performs at most `buf.length / 8 + 1` chunk reads (each chunk
header needs 8 in-buffer bytes and the reads visit strictly increasing
offsets), so `buf.length + 2` fuel is sufficient for the wrapper to
agree with the JS function on every input. -/
def parseRIFF (buf : List Nat) (offset end_ : Nat) :
    Option (List (String × ChunkNode) × Nat) :=
  parseRIFFaux buf (buf.length + 2) [] offset end_

/-! ## Variable-length quantities (`readVLQ`) -/

/-- JS `ToInt32`: wrap an integer to the signed 32-bit range. -/
def toInt32 (x : Int) : Int :=
  let r := x % 4294967296
  if r < 2147483648 then r else r - 4294967296

/-- JS `value << 7` as executed in `readVLQ`: both the operand and the
result are wrapped to signed 32 bits. -/
def jsShl7 (v : Int) : Int :=
  toInt32 (toInt32 v * 128)

/-- The `while (true)` loop of `readVLQ`, with the running `value` and
`bytes` counters explicit.  Each iteration reads `view.getUint8(offset
+ bytes)` (throwing, i.e. `none`, when out of the buffer), folds the
low 7 bits into `value` through the JS 32-bit shift (`b & 0x7F` is
`b % 128`, and the continuation test `(b & 0x80) === 0` is
`b % 256 < 128`), and stops when the continuation bit is clear.  The
`fuel` argument is only for structural termination: the JS loop either
stops or eventually reads past the buffer and throws, so
`buf.length + 1` fuel (as supplied by `readVLQ`) always reproduces the
JS behaviour. -/
def readVLQaux (buf : List Nat) (offset : Nat) : Nat → Nat → Int → Option (Int × Nat)
  | 0, _, _ => none
  | fuel + 1, bytes, value =>
    match getUint8 buf (offset + bytes) with
    | none => none
    | some b =>
      let value2 := jsShl7 value + ((b % 128 : Nat) : Int)
      if b % 256 < 128 then
        some (value2, bytes + 1)
      else
        readVLQaux buf offset fuel (bytes + 1) value2

/-- `readVLQ(view, offset)` from the source, returning `{value, bytes}`. -/
def readVLQ (buf : List Nat) (offset : Nat) : Option (Int × Nat) :=
  readVLQaux buf offset (buf.length + 1) 0 0

/-- Modelled from the spec: the source has no VLQ *encoder* (only the
decoder `readVLQ` exists in `src`), so the encoding is taken from the
spec's words: "each byte contributes its low 7 bits, continuation
indicated by the high bit, MSB-first accumulation".  `vlqGroupsF`
splits a natural number into its base-128 digits, most significant
first; the `fuel` argument is only for structural termination and `n`
fuel always suffices. -/
def vlqGroupsF : Nat → Nat → List Nat
  | 0, n => [n]
  | fuel + 1, n =>
    if n < 128 then [n] else vlqGroupsF fuel (n / 128) ++ [n % 128]

/-- Base-128 digits of `n`, most significant first. -/
def vlqGroups (n : Nat) : List Nat :=
  vlqGroupsF n n

/-- Set the continuation (high) bit on every byte except the last. -/
def vlqMark : List Nat → List Nat
  | [] => []
  | [x] => [x]
  | x :: y :: xs => (x + 128) :: vlqMark (y :: xs)

/-- Modelled from the spec: VLQ encoding of a natural number (7 data
bits per byte, MSB first, continuation in the high bit). -/
def encodeVLQ (n : Nat) : List Nat :=
  vlqMark (vlqGroups n)

example : encodeVLQ 0 = [0] := by decide
example : encodeVLQ 128 = [129, 0] := by decide
example : readVLQ [0] 0 = some (0, 1) := by decide
example : readVLQ [129, 0] 0 = some (128, 2) := by decide

/-! ## SoundFont entities -/

/-- The `Sample` class (just the fields; `playNote` mutates the offset
fields, so they are `Int` like every JS number). -/
structure Sample where
  name : String
  start : Int
  stop : Int          -- `end` in the source (reserved word in Lean)
  startLoop : Int
  endLoop : Int
  sampleRate : Nat
  originalKey : Nat
  correction : Int
  sampleLink : Nat
  sampleType : Nat
  deriving DecidableEq

/-- The `Generator` class: `(op, amount)` with a signed 16-bit amount. -/
structure Generator where
  op : Nat
  amount : Int
  deriving DecidableEq

/-- The `Zone` class.  `keyRange`/`velRange` are flattened into four
fields; `sampleID`/`instrumentID` are `null`-able (`Option`).  The
`modulators` field of the source is always the empty default and never
read, so it is omitted. -/
structure Zone where
  generators : List Generator
  keyLo : Nat := 0
  keyHi : Nat := 127
  velLo : Nat := 0
  velHi : Nat := 127
  sampleID : Option Int := none
  instrumentID : Option Int := none
  deriving DecidableEq

/-- The `Instrument` class. -/
structure Instrument where
  name : String
  zones : List Zone
  deriving DecidableEq

/-- The `Preset` class. -/
structure Preset where
  name : String
  program : Nat
  bank : Nat
  zones : List Zone
  deriving DecidableEq

/-- JS `amount & 0xFF` on an Int16 amount (two's complement low byte). -/
def lo8 (a : Int) : Nat :=
  (a.emod 256).toNat

/-- JS `(amount >> 8) & 0xFF` on an Int16 amount: arithmetic shift
(floor division by 256), then the low byte. -/
def hi8 (a : Int) : Nat :=
  ((a.fdiv 256).emod 256).toNat

/-- The `generators.forEach` of the instrument-zone decoding loop:
op 43 sets the key range, op 44 the velocity range, op 53 the sample
index (each `if` independent; a later generator overwrites an earlier
one, as in the source). -/
def instZoneOfGens (gens : List Generator) : Zone :=
  gens.foldl
    (fun z g =>
      let z := if g.op = 43 then
        { z with keyLo := lo8 g.amount, keyHi := hi8 g.amount } else z
      let z := if g.op = 44 then
        { z with velLo := lo8 g.amount, velHi := hi8 g.amount } else z
      if g.op = 53 then { z with sampleID := some g.amount } else z)
    { generators := gens }

/-- The `generators.forEach` of the preset-zone decoding loop:
op 41 sets the instrument index, ops 43/44 the ranges. -/
def presetZoneOfGens (gens : List Generator) : Zone :=
  gens.foldl
    (fun z g =>
      let z := if g.op = 41 then { z with instrumentID := some g.amount } else z
      let z := if g.op = 43 then
        { z with keyLo := lo8 g.amount, keyHi := hi8 g.amount } else z
      if g.op = 44 then
        { z with velLo := lo8 g.amount, velHi := hi8 g.amount } else z)
    { generators := gens }

/-- The inner generator loop of `SoundFontParser.parse`: read `count`
4-byte records of the `igen`/`pgen` table starting at record index
`gNdx` (table data starting at byte `tblOff`). -/
def readGenList (buf : List Nat) (tblOff : Nat) : Nat → Nat → Option (List Generator)
  | _, 0 => some []
  | gNdx, count + 1 => do
    let op ← getUint16le buf (tblOff + gNdx * 4)
    let amount ← getInt16le buf (tblOff + gNdx * 4 + 2)
    let rest ← readGenList buf tblOff (gNdx + 1) count
    pure (⟨op, amount⟩ :: rest)

/-- The zone (bag) loop of `SoundFontParser.parse`: read `count` zones
starting at bag index `bNdx`; each bag record holds a generator start
index (and a modulator index, read but unused), and its generator count
is the next bag's start index minus its own (a negative JS difference
runs the generator loop zero times, as does truncated subtraction
here).  `mk` is the owner-specific zone builder. -/
def readZoneList (buf : List Nat) (bagOff genOff : Nat)
    (mk : List Generator → Zone) : Nat → Nat → Option (List Zone)
  | _, 0 => some []
  | bNdx, count + 1 => do
    let genNdx ← getUint16le buf (bagOff + bNdx * 4)
    let _modNdx ← getUint16le buf (bagOff + bNdx * 4 + 2)
    let nextGenNdx ← getUint16le buf (bagOff + bNdx * 4 + 4)
    let gens ← readGenList buf genOff genNdx (nextGenNdx - genNdx)
    let rest ← readZoneList buf bagOff genOff mk (bNdx + 1) count
    pure (mk gens :: rest)

/-- The instrument loop of `SoundFontParser.parse` (22-byte `inst`
records), reading records `i, i+1, …` while `count` remains: name, bag
start index, and the zone count from the next record's bag index. -/
def readInstList (buf : List Nat) (instOff ibagOff igenOff : Nat) :
    Nat → Nat → Option (List Instrument)
  | _, 0 => some []
  | i, count + 1 => do
    let off := instOff + i * 22
    let name ← readStringN buf off 20
    let bagNdx ← getUint16le buf (off + 20)
    let nextBagNdx ← getUint16le buf (off + 20 + 22)
    let zones ← readZoneList buf ibagOff igenOff instZoneOfGens bagNdx (nextBagNdx - bagNdx)
    let rest ← readInstList buf instOff ibagOff igenOff (i + 1) count
    pure (⟨name, zones⟩ :: rest)

/-- The instrument-table decoding of `SoundFontParser.parse`:
`numInst = inst.size / 22` records (Nat division; the JS real division
agrees on tables of whole records), loop bound `numInst - 1`, excluding
the terminal sentinel record. -/
def parseInstruments (buf : List Nat) (instOff instSize ibagOff igenOff : Nat) :
    Option (List Instrument) :=
  readInstList buf instOff ibagOff igenOff 0 (instSize / 22 - 1)

/-- The preset loop of `SoundFontParser.parse` (38-byte `phdr`
records). -/
def readPresetList (buf : List Nat) (phdrOff pbagOff pgenOff : Nat) :
    Nat → Nat → Option (List Preset)
  | _, 0 => some []
  | i, count + 1 => do
    let off := phdrOff + i * 38
    let name ← readStringN buf off 20
    let program ← getUint16le buf (off + 20)
    let bank ← getUint16le buf (off + 22)
    let bagNdx ← getUint16le buf (off + 24)
    let nextBagNdx ← getUint16le buf (off + 24 + 38)
    let zones ← readZoneList buf pbagOff pgenOff presetZoneOfGens bagNdx (nextBagNdx - bagNdx)
    let rest ← readPresetList buf phdrOff pbagOff pgenOff (i + 1) count
    pure (⟨name, program, bank, zones⟩ :: rest)

/-- The preset-table decoding of `SoundFontParser.parse`:
`numPresets = phdr.size / 38` records, loop bound `numPresets - 1`,
excluding the terminal sentinel record. -/
def parsePresets (buf : List Nat) (phdrOff phdrSize pbagOff pgenOff : Nat) :
    Option (List Preset) :=
  readPresetList buf phdrOff pbagOff pgenOff 0 (phdrSize / 38 - 1)

/-! ## Zone resolution (`SoundFontParser.getZonesForNote`) -/

/-- JS array indexing `arr[i]`: `none` models the `undefined` produced
by a negative or out-of-range index. -/
def jsIndex {α : Type} (l : List α) (i : Int) : Option α :=
  if 0 ≤ i then l.get? i.toNat else none

/-- One element of the `matchingZones` array:
`{zone, sample: this.samples[id], presetZone}`.  `sample` is an
`Option` because an out-of-range `sampleID` makes the JS expression
`undefined` without raising. -/
structure ZoneMatch where
  zone : Zone
  sample : Option Sample
  presetZone : Zone
  deriving DecidableEq

/-- Range test of `getZonesForNote` (inclusive on both ends). -/
def zoneMatches (z : Zone) (key vel : Nat) : Bool :=
  z.keyLo ≤ key ∧ key ≤ z.keyHi ∧ z.velLo ≤ vel ∧ vel ≤ z.velHi

/-- The inner `inst.zones.forEach` of `getZonesForNote`: push a match
for every instrument zone whose ranges contain the query and whose
`sampleID` is non-`null` (the sample lookup itself is *not* checked —
an out-of-range index just stores `undefined`). -/
def instZoneScan (samples : List Sample) (presetZone : Zone) (key vel : Nat)
    (ms : List ZoneMatch) (instZone : Zone) : List ZoneMatch :=
  if zoneMatches instZone key vel ∧ instZone.sampleID.isSome then
    match instZone.sampleID with
    | some sid => ms ++ [⟨instZone, jsIndex samples sid, presetZone⟩]
    | none => ms
  else ms

/-- One step of the outer `preset.zones.forEach` of `getZonesForNote`:
a zone in range with a non-`null` `instrumentID` dereferences
`this.instruments[id]` — when that index is out of range the JS
`inst.zones.forEach` throws a `TypeError` (modelled by `none`), which
aborts the whole call; the `matchingZones` list built so far is
threaded as an `Option` accumulator that stays `none` once a zone has
thrown. -/
def presetZoneStep (samples : List Sample) (instruments : List Instrument)
    (key vel : Nat) (acc : Option (List ZoneMatch)) (zone : Zone) :
    Option (List ZoneMatch) := do
  let ms ← acc
  if zoneMatches zone key vel then
    match zone.instrumentID with
    | none => pure ms
    | some instId =>
      match jsIndex instruments instId with
      | none => none
      | some inst =>
        pure (inst.zones.foldl (instZoneScan samples zone key vel) ms)
  else
    pure ms

/-- `getZonesForNote(preset, key, velocity)` from the source. -/
def getZonesForNote (samples : List Sample) (instruments : List Instrument)
    (preset : Preset) (key vel : Nat) : Option (List ZoneMatch) :=
  preset.zones.foldl (presetZoneStep samples instruments key vel) (some [])

/-! ## Generator aggregation (`SoundFontPlayer.playNote`) -/

/-- One JS assignment
`effectiveGens[gen.op] = (effectiveGens[gen.op] || 0) + gen.amount`
on the effective-generator object, modelled as an association list
keyed by operator: add to the entry for `gen.op` when present (a
missing key reads as `0` via `|| 0`), otherwise append a new entry. -/
def upsertGen : List (Nat × Int) → Generator → List (Nat × Int)
  | [], g => [(g.op, g.amount)]
  | p :: t, g => if p.1 = g.op then (p.1, p.2 + g.amount) :: t else p :: upsertGen t g

/-- The `effectiveGens` object of `playNote` after both `forEach`
loops: first every instrument-zone generator, then every preset-zone
generator, each folded in by `upsertGen`. -/
def effectiveGens (izgens pzgens : List Generator) : List (Nat × Int) :=
  (izgens ++ pzgens).foldl upsertGen []

/-- Lookup of an operator in the effective-generator object
(`none` = key absent). -/
def lookupGen (m : List (Nat × Int)) (op : Nat) : Option Int :=
  (m.find? (fun p => p.1 = op)).map (fun p => p.2)

/-- Sum of the amounts a generator list carries for one operator. -/
def sumOp (gens : List Generator) (op : Nat) : Int :=
  ((gens.filter (fun g => g.op = op)).map (fun g => g.amount)).sum

/-- Whether a generator list mentions an operator at all. -/
def hasOp (gens : List Generator) (op : Nat) : Bool :=
  gens.any (fun g => g.op = op)

/-- The aggregation policy the code actually implements, per operator:
when either zone mentions the operator, the resolved amount is the sum
of the instrument-zone amounts plus the preset-zone amounts *alone*
(the sum replaces the default); the default `dflt` survives only when
neither zone mentions the operator. -/
def resolvedAmount (izgens pzgens : List Generator) (op : Nat) (dflt : Int) : Int :=
  if hasOp izgens op || hasOp pzgens op then sumOp izgens op + sumOp pzgens op
  else dflt

/-- `Math.pow(2, c / 1200)` as evaluated by `playNote` on a generator
amount `c`.  The exponent here is the *integer* quotient, so the
embedding is exact exactly when `1200 ∣ c`; every concrete evaluation
in this file (the `-12000` defaults and the chosen inputs) is at such a
multiple. -/
def pow2cents (c : Int) : ℚ :=
  let e : Int := c / 1200
  if 0 ≤ e then ((2 ^ e.toNat : Nat) : ℚ) else 1 / ((2 ^ (-e).toNat : Nat) : ℚ)

/-- The local parameter variables of `playNote` (lines 326–358 of the
source) after the generator `switch` has run.  Fields that later
receive fractional default-modulator contributions (`atten`, `pan`,
`filterFc`, `vibLfoToPitch`) and the time-cent conversions are `ℚ`;
the rest are the integers the source holds. -/
structure VoiceParams where
  rootKey : Int
  fineTune : Int
  coarseTune : Int
  scaleTune : Int
  atten : ℚ
  pan : ℚ
  sampleModes : Int
  reverbSend : Int
  chorusSend : Int
  filterFc : ℚ
  filterQ : Int
  modLfoToPitch : Int
  vibLfoToPitch : ℚ
  modEnvToPitch : Int
  modLfoToFilterFc : Int
  modEnvToFilterFc : Int
  modLfoToVolume : Int
  delayVolEnv : ℚ
  attackVolEnv : ℚ
  holdVolEnv : ℚ
  decayVolEnv : ℚ
  sustainVolEnv : Int
  releaseVolEnv : ℚ
  delayModEnv : ℚ
  attackModEnv : ℚ
  holdModEnv : ℚ
  decayModEnv : ℚ
  sustainModEnv : Int
  releaseModEnv : ℚ
  delayModLfo : ℚ
  freqModLfo : Int
  delayVibLfo : ℚ
  freqVibLfo : Int
  deriving DecidableEq

/-- The per-matched-pair aggregation of `playNote`: build
`effectiveGens` from the instrument zone then the preset zone, then run
the `switch` over `Object.keys(effectiveGens)`.  Each `case` of the
`switch` touches a distinct operator and each operator occurs at most
once among the keys, so the loop's outcome is determined field by
field: a field is assigned the effective amount of its operator when
that key is present and keeps its initializer otherwise, and the
sample-offset cases (`0,1,2,3,4,12,14,18`) *mutate the `Sample`
record* (`sample.start += amount`, …), here returned as the updated
first component.  `case 48` adds `amount / 10` to the zero-initialized
`atten`. -/
def aggregateGens (s : Sample) (izgens pzgens : List Generator) :
    Sample × VoiceParams :=
  let eff : Nat → Option Int := fun op => lookupGen (effectiveGens izgens pzgens) op
  let effD : Nat → Int := fun op => (eff op).getD 0
  let timeCents : Nat → ℚ := fun op =>
    match eff op with
    | some a => pow2cents a
    | none => pow2cents (-12000)
  let s2 : Sample := { s with
    start := s.start + effD 0 + effD 4 * 32768,
    stop := s.stop + effD 1 + effD 12 * 32768,
    startLoop := s.startLoop + effD 2 + effD 14 * 32768,
    endLoop := s.endLoop + effD 3 + effD 18 * 32768 }
  let p : VoiceParams := {
    rootKey := (eff 58).getD s.originalKey
    fineTune := effD 52
    coarseTune := effD 51
    scaleTune := (eff 56).getD 100
    atten := match eff 48 with
      | some a => (a : ℚ) / 10
      | none => 0
    pan := (effD 17 : ℚ)
    sampleModes := effD 54
    reverbSend := effD 16
    chorusSend := effD 15
    filterFc := match eff 8 with
      | some a => (a : ℚ)
      | none => 13500
    filterQ := effD 9
    modLfoToPitch := effD 5
    vibLfoToPitch := (effD 6 : ℚ)
    modEnvToPitch := effD 7
    modLfoToFilterFc := effD 10
    modEnvToFilterFc := effD 11
    modLfoToVolume := effD 13
    delayVolEnv := timeCents 33
    attackVolEnv := timeCents 34
    holdVolEnv := timeCents 35
    decayVolEnv := timeCents 36
    sustainVolEnv := effD 37
    releaseVolEnv := timeCents 38
    delayModEnv := timeCents 25
    attackModEnv := timeCents 26
    holdModEnv := timeCents 27
    decayModEnv := timeCents 28
    sustainModEnv := (eff 29).getD 1000
    releaseModEnv := timeCents 30
    delayModLfo := timeCents 21
    freqModLfo := effD 22
    delayVibLfo := timeCents 23
    freqVibLfo := effD 24 }
  (s2, p)

/-- The per-channel state object of `playMIDI`
(`{bank, preset, volume, expression, pan, mod, pitchBend}`). -/
structure ChannelState where
  bank : Nat
  preset : Nat
  volume : Nat
  expression : Nat
  pan : Nat
  mod : Nat
  pitchBend : Int
  deriving DecidableEq

/-- The "Apply default modulators" block of `playNote` (source lines
409–414): velocity curve into `atten` and `filterFc`, mod wheel into
`vibLfoToPitch`, CC7/CC11 into `atten`, CC10 into `pan`. -/
def applyDefaultMods (velocity : Nat) (st : ChannelState) (p : VoiceParams) :
    VoiceParams :=
  { p with
    atten := p.atten + 96 * (1 - ((velocity : ℚ) / 127) ^ 2)
      + 96 * (1 - (st.volume : ℚ) / 127)
      + 96 * (1 - (st.expression : ℚ) / 127)
    filterFc := p.filterFc + (-2400) * (1 - (velocity : ℚ) / 127)
    vibLfoToPitch := p.vibLfoToPitch + 50 * ((st.mod : ℚ) / 127)
    pan := p.pan + 1000 * ((st.pan : ℚ) / 127 - 1 / 2) }

/-- The `minTime` constant of `playNote`.  The JS literal `0.001` is
the double nearest to `1/1000`; every comparison in this file is far
from that rounding gap, so the exact rational stands in for it. -/
def minTime : ℚ := 1 / 1000

/-- The "Time fixes" block of `playNote` (source lines 417–421): only
`delayVolEnv` and `attackVolEnv` are floored to `minTime`; the comment
`// etc for others` is not implemented for any other parameter. -/
def clampTimes (p : VoiceParams) : VoiceParams :=
  { p with
    delayVolEnv := max minTime p.delayVolEnv,
    attackVolEnv := max minTime p.attackVolEnv }

/-- The whole parameter-resolution pipeline of `playNote` for one
matched zone pair: generator aggregation (also yielding the mutated
`Sample`), default modulators, then the partial minimum-time clamp. -/
def resolveVoiceParams (s : Sample) (izgens pzgens : List Generator)
    (velocity : Nat) (st : ChannelState) : Sample × VoiceParams :=
  let sp := aggregateGens s izgens pzgens
  (sp.1, clampTimes (applyDefaultMods velocity st sp.2))

/-! ## The `playMIDI` scheduling pass -/

/-- The shapes of parsed MIDI events as `parseMIDI` produces them:
meta events carry `metaType` and a payload, sysex events a payload,
channel-voice events the high-nibble `type`, the channel and one or two
data bytes.  (`playMIDI` first tests `ev.metaType === 0x51`, then
`ev.type`; on a JS object the absent fields are `undefined`, which this
inductive split reproduces.) -/
inductive MidiMsg where
  | meta (metaType : Nat) (data : List Nat)
  | sysex (data : List Nat)
  | voice (type channel param1 param2 : Nat)
  deriving DecidableEq

/-- An event with its absolute tick, as produced by the track-merging
prefix sum of `playMIDI`. -/
structure TimedEvent where
  tick : Nat
  msg : MidiMsg
  deriving DecidableEq

/-- The mutable state of one `playMIDI` scheduling pass.  The 16
per-channel `activeNotes` objects are flattened into one association
list keyed by `(channel, note)` — the JS dictionaries are disjoint per
channel, so the two views coincide.  `playNote` itself is treated
abstractly: each voice trigger allocates the fresh stop-handle id
`nextHandle`, and invoking a stop-handle appends `(handle, time)` to
`calls`. -/
structure SchedState where
  tempo : Nat
  lastTick : Nat
  currentTime : ℚ
  active : List ((Nat × Nat) × Nat)
  channels : List ChannelState
  calls : List (Nat × ℚ)
  nextHandle : Nat
  deriving DecidableEq

/-- `activeNotes[ch][note]` (`none` = no stored stop-handle). -/
def lookupActive (a : List ((Nat × Nat) × Nat)) (ch note : Nat) : Option Nat :=
  (a.find? (fun p => p.1 = (ch, note))).map (fun p => p.2)

/-- `delete activeNotes[ch][note]` (a no-op when the key is absent). -/
def removeActive (a : List ((Nat × Nat) × Nat)) (ch note : Nat) :
    List ((Nat × Nat) × Nat) :=
  a.filter (fun p => p.1 ≠ (ch, note))

/-- `activeNotes[ch][note] = h` (overwrites any existing handle). -/
def setActive (a : List ((Nat × Nat) × Nat)) (ch note h : Nat) :
    List ((Nat × Nat) × Nat) :=
  if a.any (fun p => p.1 = (ch, note)) then
    a.map (fun p => if p.1 = (ch, note) then (p.1, h) else p)
  else
    a ++ [((ch, note), h)]

/-- Update the channel-state record at index `ch` in place. -/
def updChannel (channels : List ChannelState) (ch : Nat)
    (f : ChannelState → ChannelState) : List ChannelState :=
  channels.mapIdx (fun i c => if i = ch then f c else c)

/-- The play-head advance at the top of the `events.forEach` body:
`deltaSec = (deltaTick / division) * (tempo / 1000000)`, then
`currentTime += deltaSec; lastTick = ev.tick`. -/
def advTime (division : Nat) (s : SchedState) (tick : Nat) : SchedState :=
  let deltaTick : Int := (tick : Int) - (s.lastTick : Int)
  let deltaSec : ℚ := ((deltaTick : ℚ) / (division : ℚ)) * ((s.tempo : ℚ) / 1000000)
  { s with currentTime := s.currentTime + deltaSec, lastTick := tick }

/-- The note-off body shared by `type 0x8` and zero-velocity note-on:
look up the stop-handle for `(channel, note)`, invoke it with the
current play-head time when present, and `delete` the slot (the
`delete` runs unconditionally and is a no-op on an absent key). -/
def noteOffAction (s : SchedState) (ch note : Nat) : SchedState :=
  match lookupActive s.active ch note with
  | some h =>
    { s with
      calls := s.calls ++ [(h, s.currentTime)],
      active := removeActive s.active ch note }
  | none => { s with active := removeActive s.active ch note }

/-- One iteration of the `events.forEach` dispatch of `playMIDI`. -/
def dispatchEvent (division : Nat) (s : SchedState) (e : TimedEvent) : SchedState :=
  let s := advTime division s e.tick
  match e.msg with
  | .meta mt data =>
    if mt = 0x51 ∧ data.length = 3 then
      match data with
      | [b0, b1, b2] => { s with tempo := b0 * 65536 + b1 * 256 + b2 }
      | _ => s
    else s
  | .sysex _ => s
  | .voice ty ch p1 p2 =>
    if ty = 9 then
      if p2 = 0 then noteOffAction s ch p1
      else
        { s with
          active := setActive s.active ch p1 s.nextHandle,
          nextHandle := s.nextHandle + 1 }
    else if ty = 8 then noteOffAction s ch p1
    else if ty = 0xB then
      let upd := fun (f : ChannelState → ChannelState) =>
        { s with channels := updChannel s.channels ch f }
      if p1 = 0 then upd (fun c => { c with bank := (c.bank &&& 0x7F) ||| (p2 <<< 7) })
      else if p1 = 32 then upd (fun c => { c with bank := (c.bank &&& 0x3F80) ||| p2 })
      else if p1 = 7 then upd (fun c => { c with volume := p2 })
      else if p1 = 10 then upd (fun c => { c with pan := p2 })
      else if p1 = 11 then upd (fun c => { c with expression := p2 })
      else if p1 = 1 then upd (fun c => { c with mod := p2 })
      else s
    else if ty = 0xC then
      { s with channels := updChannel s.channels ch (fun c => { c with preset := p1 }) }
    else if ty = 0xE then
      let bend : Nat := (p2 <<< 7) ||| p1
      let f := fun (c : ChannelState) => { c with pitchBend := (bend : Int) - 8192 }
      { s with channels := updChannel s.channels ch f }
    else s

/-- The per-channel initializer of `playMIDI`:
`{bank: 0, preset: 0, volume: 127, expression: 127, pan: 64, mod: 0,
pitchBend: 0}`. -/
def initChannelState : ChannelState :=
  ⟨0, 0, 127, 127, 64, 0, 0⟩

/-- The state of a `playMIDI` pass right before the `events.forEach`:
initial tempo `500000`, `lastTick = 0`, play-head at the reference
time, 16 freshly initialized channel states, and an empty active-voice
table. -/
def initSched (startTime : ℚ) : SchedState :=
  { tempo := 500000
    lastTick := 0
    currentTime := startTime
    active := []
    channels := List.replicate 16 initChannelState
    calls := []
    nextHandle := 0 }

/-- The whole scheduling pass: fold the dispatch over the merged,
tick-sorted event list starting from the initial state. -/
def playMIDIrun (division : Nat) (events : List TimedEvent) (startTime : ℚ) :
    SchedState :=
  events.foldl (dispatchEvent division) (initSched startTime)

/-! ## Proof-device definitions and concrete example inputs -/

/-- Value of a base-128 digit list, MSB first (the integer a VLQ byte
sequence denotes). -/
def valGroups (gs : List Nat) : Nat :=
  gs.foldl (fun a g => a * 128 + g) 0

/-- Proof-device restatement of the `readVLQ` loop as a function of the
unread buffer suffix (related to `readVLQaux` by
`readVLQaux_eq_list`). -/
def readVLQlist : List Nat → Int → Option (Int × Nat)
  | [], _ => none
  | b :: rest, v =>
    let v2 := jsShl7 v + ((b % 128 : Nat) : Int)
    if b % 256 < 128 then some (v2, 1)
    else (readVLQlist rest v2).map (fun p => (p.1, p.2 + 1))

/-- A buffer holding a single chunk header `abcd` with declared size
100 and no body at all. -/
def rbufA : List Nat := [97, 98, 99, 100, 100, 0, 0, 0]

/-- A buffer holding one complete chunk `abcd` of odd size 1 (8-byte
header, 1 data byte, no pad byte present). -/
def rbufB : List Nat := [97, 98, 99, 100, 1, 0, 0, 0, 55]

/-- The 5-byte VLQ encoding of `2^31`. -/
def vlqOverflowBytes : List Nat := [136, 128, 128, 128, 0]

/-- A concrete parsed `Sample` record. -/
def sampleA : Sample := ⟨"sampleA", 100, 200, 110, 190, 44100, 60, 0, 0, 1⟩

/-- An instrument zone with full key/velocity ranges referencing sample 0. -/
def izA : Zone := { generators := [], sampleID := some 0 }

/-- An instrument owning the single zone `izA`. -/
def instA : Instrument := ⟨"instA", [izA]⟩

/-- A preset zone referencing instrument index 0 (in range). -/
def pzGood : Zone := { generators := [], instrumentID := some 0 }

/-- A preset zone referencing instrument index 5 (out of range for a
one-instrument table). -/
def pzBad : Zone := { generators := [], instrumentID := some 5 }

/-- A preset whose first zone has a dangling instrument reference and
whose second zone is valid. -/
def presetBoth : Preset := ⟨"preset", 0, 0, [pzBad, pzGood]⟩

/-- The same preset with only the valid zone. -/
def presetGood : Preset := ⟨"preset", 0, 0, [pzGood]⟩

/-- A scheduling state with an empty active-voice table. -/
def cStA : SchedState :=
  { tempo := 500000, lastTick := 0, currentTime := 0, active := []
    channels := List.replicate 16 initChannelState, calls := [], nextHandle := 0 }

/-- A scheduling state holding stop-handle `7` for channel 0, note 60. -/
def cStB : SchedState :=
  { cStA with active := [((0, 60), 7)], nextHandle := 8 }
/-! ## Helper lemmas for the active-voice table -/

theorem removeActive_of_lookup_none (a : List ((Nat × Nat) × Nat)) (ch note : Nat)
    (h : lookupActive a ch note = none) : removeActive a ch note = a := by
  unfold lookupActive at h
  rw [Option.map_eq_none'] at h
  unfold removeActive
  apply List.filter_eq_self.mpr
  intro x hx
  have hfind := List.find?_eq_none.mp h x hx
  simpa using hfind

theorem lookupActive_removeActive (a : List ((Nat × Nat) × Nat)) (ch note : Nat) :
    lookupActive (removeActive a ch note) ch note = none := by
  unfold lookupActive removeActive
  rw [Option.map_eq_none']
  apply List.find?_eq_none.mpr
  intro x hx
  have := (List.mem_filter.mp hx).2
  simpa using this

/-- C9: dispatching a note-off event (type `0x8`, any velocity byte) or
a zero-velocity note-on for `(channel, note)`: with no stored
stop-handle the dispatch only advances the play-head (active-voice
table, call log and channel states untouched — a no-op, not an error);
with a stored handle `h`, the handle is invoked with the current
play-head time (recorded in `calls`) and the `(channel, note)` slot is
removed from the active-voice table. -/
theorem noteOff_dispatch (d : Nat) (s : SchedState) (t ch note p2 : Nat) :
    (lookupActive s.active ch note = none →
      dispatchEvent d s ⟨t, .voice 8 ch note p2⟩ = advTime d s t ∧
      dispatchEvent d s ⟨t, .voice 9 ch note 0⟩ = advTime d s t) ∧
    (∀ h, lookupActive s.active ch note = some h →
      ((dispatchEvent d s ⟨t, .voice 8 ch note p2⟩).calls
          = s.calls ++ [(h, (advTime d s t).currentTime)] ∧
        lookupActive (dispatchEvent d s ⟨t, .voice 8 ch note p2⟩).active ch note = none) ∧
      ((dispatchEvent d s ⟨t, .voice 9 ch note 0⟩).calls
          = s.calls ++ [(h, (advTime d s t).currentTime)] ∧
        lookupActive (dispatchEvent d s ⟨t, .voice 9 ch note 0⟩).active ch note = none)) := by
  constructor
  · intro hnone
    have hrm := removeActive_of_lookup_none s.active ch note hnone
    constructor
    · simp [dispatchEvent, noteOffAction, hnone, hrm, advTime]
    · simp [dispatchEvent, noteOffAction, hnone, hrm, advTime]
  · intro h hsome
    refine ⟨⟨?_, ?_⟩, ?_, ?_⟩ <;>
      simp [dispatchEvent, noteOffAction, hsome, advTime, lookupActive_removeActive]

/-- Witness for `noteOff_dispatch` at concrete scheduling states. -/
theorem noteOff_dispatch_witness :
    (dispatchEvent 480 cStA ⟨0, .voice 8 0 60 0⟩ = advTime 480 cStA 0 ∧
      dispatchEvent 480 cStA ⟨0, .voice 9 0 60 0⟩ = advTime 480 cStA 0) ∧
    ((dispatchEvent 480 cStB ⟨0, .voice 8 0 60 0⟩).calls
        = cStB.calls ++ [(7, (advTime 480 cStB 0).currentTime)] ∧
      lookupActive (dispatchEvent 480 cStB ⟨0, .voice 8 0 60 0⟩).active 0 60 = none) := by
  refine ⟨(noteOff_dispatch 480 cStA 0 0 60 0).1 rfl,
    ((noteOff_dispatch 480 cStB 0 0 60 0).2 7 rfl).1⟩

/-- C10: at the start of every `playMIDI` scheduling pass each of the
16 channels reads bank 0, preset (program) 0, volume 127, expression
127, pan 64, modulation 0 and pitch-bend 0, and the active-voice table
holds no stop-handle for any `(channel, note)` pair. -/
theorem playMIDI_init_state (t0 : ℚ) (ch : Nat) (hch : ch < 16) :
    (initSched t0).channels.get? ch =
      some { bank := 0, preset := 0, volume := 127, expression := 127,
             pan := 64, mod := 0, pitchBend := 0 } ∧
    ∀ note, lookupActive (initSched t0).active ch note = none := by
  refine ⟨?_, fun note => rfl⟩
  interval_cases ch <;> rfl

/-- Witness for `playMIDI_init_state` at channel 3. -/
theorem playMIDI_init_state_witness :
    (initSched 0).channels.get? 3 =
      some { bank := 0, preset := 0, volume := 127, expression := 127,
             pan := 64, mod := 0, pitchBend := 0 } ∧
    ∀ note, lookupActive (initSched 0).active 3 note = none :=
  playMIDI_init_state 0 3 (by decide)

/-! ## parseRIFF lemmas -/

theorem readChunk_inv (buf : List Nat) (offset : Nat) (c : RChunk)
    (h : readChunk buf offset = some c) :
    c.dataOff = offset + 8 ∧ c.chend = offset + 8 + c.size := by
  simp only [readChunk] at h
  split at h
  · obtain rfl : _ = c := Option.some_inj.mp h
    exact ⟨rfl, rfl⟩
  · exact absurd h (by simp)

theorem parseRIFFaux_done (buf : List Nat) (fuel : Nat) (acc : List (String × ChunkNode))
    (offset end_ : Nat) (h : ¬ offset < end_) :
    parseRIFFaux buf fuel acc offset end_ = some (acc, offset) := by
  cases fuel <;> simp [parseRIFFaux, h]

theorem parseRIFFaux_step_leaf (buf : List Nat) (fuel : Nat)
    (acc : List (String × ChunkNode)) (offset end_ : Nat) (c : RChunk)
    (hlt : offset < end_) (hc : readChunk buf offset = some c)
    (hid : ¬(c.id = "RIFF" ∨ c.id = "LIST")) :
    parseRIFFaux buf (fuel + 1) acc offset end_ =
      parseRIFFaux buf fuel (jsSet acc c.id (ChunkNode.leaf c.dataOff c.size))
        (offset + 8 + c.size + c.size % 2) end_ := by
  obtain ⟨hdo, hce⟩ := readChunk_inv buf offset c hc
  simp only [parseRIFFaux, if_pos hlt, hc]
  rw [if_neg hid, hce]

theorem parseRIFFaux_step_container (buf : List Nat) (fuel : Nat)
    (acc : List (String × ChunkNode)) (offset end_ : Nat) (c : RChunk)
    (ft : String) (sub : List (String × ChunkNode)) (fin2 : Nat)
    (hlt : offset < end_) (hc : readChunk buf offset = some c)
    (hid : c.id = "RIFF" ∨ c.id = "LIST")
    (hft : readStringN buf c.dataOff 4 = some ft)
    (hsub : parseRIFFaux buf fuel [] (c.dataOff + 4) c.chend = some (sub, fin2)) :
    parseRIFFaux buf (fuel + 1) acc offset end_ =
      parseRIFFaux buf fuel (jsSet acc ft (ChunkNode.dir sub))
        (offset + 8 + c.size + c.size % 2) end_ := by
  obtain ⟨hdo, hce⟩ := readChunk_inv buf offset c hc
  simp only [parseRIFFaux, if_pos hlt, hc]
  rw [if_pos hid, hft, hsub, hce]

theorem parseRIFFaux_final_ge (fuel : Nat) : ∀ (buf : List Nat)
    (acc : List (String × ChunkNode)) (offset end_ : Nat)
    (m : List (String × ChunkNode)) (fin : Nat),
    parseRIFFaux buf fuel acc offset end_ = some (m, fin) → end_ ≤ fin := by
  induction fuel with
  | zero =>
    intro buf acc offset end_ m fin h
    by_cases hlt : offset < end_
    · simp [parseRIFFaux, hlt] at h
    · rw [parseRIFFaux_done _ _ _ _ _ hlt] at h
      have h2 : offset = fin := congrArg Prod.snd (Option.some_inj.mp h)
      omega
  | succ n ih =>
    intro buf acc offset end_ m fin h
    by_cases hlt : offset < end_
    · simp only [parseRIFFaux, if_pos hlt] at h
      split at h
      · exact absurd h (by simp)
      · split at h
        · split at h
          · exact absurd h (by simp)
          · split at h
            · exact absurd h (by simp)
            · exact ih buf _ _ end_ m fin h
        · exact ih buf _ _ end_ m fin h
    · rw [parseRIFFaux_done _ _ _ _ _ hlt] at h
      have h2 : offset = fin := congrArg Prod.snd (Option.some_inj.mp h)
      omega

/-- C6 (amended): each `parseRIFF` loop iteration advances the read
offset past the current chunk by exactly `8 + size` bytes plus one pad
byte when `size` is odd (first two conjuncts: leaf and container
cases), and when the loop returns, the final offset is at least the
parent's declared extent `end` — but it may exceed it, since nothing
checks exact coverage (see `parseRIFF_coverage_cx`): siblings cover the
parent extent exactly only when their padded sizes tile it. -/
theorem parseRIFF_chunk_advance :
    (∀ (buf : List Nat) (fuel : Nat) (acc : List (String × ChunkNode))
      (offset end_ : Nat) (c : RChunk),
      offset < end_ → readChunk buf offset = some c →
      ¬(c.id = "RIFF" ∨ c.id = "LIST") →
      parseRIFFaux buf (fuel + 1) acc offset end_ =
        parseRIFFaux buf fuel (jsSet acc c.id (ChunkNode.leaf c.dataOff c.size))
          (offset + 8 + c.size + c.size % 2) end_) ∧
    (∀ (buf : List Nat) (fuel : Nat) (acc : List (String × ChunkNode))
      (offset end_ : Nat) (c : RChunk) (ft : String)
      (sub : List (String × ChunkNode)) (fin2 : Nat),
      offset < end_ → readChunk buf offset = some c →
      (c.id = "RIFF" ∨ c.id = "LIST") →
      readStringN buf c.dataOff 4 = some ft →
      parseRIFFaux buf fuel [] (c.dataOff + 4) c.chend = some (sub, fin2) →
      parseRIFFaux buf (fuel + 1) acc offset end_ =
        parseRIFFaux buf fuel (jsSet acc ft (ChunkNode.dir sub))
          (offset + 8 + c.size + c.size % 2) end_) ∧
    (∀ (buf : List Nat) (fuel : Nat) (acc m : List (String × ChunkNode))
      (offset end_ fin : Nat),
      parseRIFFaux buf fuel acc offset end_ = some (m, fin) → end_ ≤ fin) :=
  ⟨fun buf fuel acc offset end_ c h1 h2 h3 =>
      parseRIFFaux_step_leaf buf fuel acc offset end_ c h1 h2 h3,
    fun buf fuel acc offset end_ c ft sub fin2 h1 h2 h3 h4 h5 =>
      parseRIFFaux_step_container buf fuel acc offset end_ c ft sub fin2 h1 h2 h3 h4 h5,
    fun buf fuel acc m offset end_ fin h =>
      parseRIFFaux_final_ge fuel buf acc offset end_ m fin h⟩

/-- C6 (counterexample): one sibling of odd declared size 1 inside a
parent extent of 9 consumes `8 + 1 + 1 = 10` bytes, so the total
consumed does not equal the parent's declared extent, yet the parse
succeeds. -/
theorem parseRIFF_coverage_cx :
    parseRIFF rbufB 0 9 = some ([("abcd", ChunkNode.leaf 8 1)], 10) ∧ (10 : Nat) ≠ 9 :=
  ⟨rfl, by decide⟩

/-- Witness for `parseRIFF_chunk_advance` on the concrete buffer
`rbufB`. -/
theorem parseRIFF_chunk_advance_witness :
    (parseRIFFaux rbufB 5 [] 0 9 =
      parseRIFFaux rbufB 4 (jsSet [] "abcd" (ChunkNode.leaf 8 1)) 10 9) ∧
    (9 : Nat) ≤ 10 :=
  ⟨parseRIFF_chunk_advance.1 rbufB 4 [] 0 9 ⟨"abcd", 1, 8, 9⟩ (by decide) rfl (by decide),
    parseRIFF_chunk_advance.2.2 rbufB 5 [] [("abcd", ChunkNode.leaf 8 1)] 0 9 10 rfl⟩

/-- C3 (amended): `parseRIFF` never checks a chunk's declared size
against `end`: whenever a chunk's 8-byte header is readable, its id is
not a container tag, and the padded chunk extent reaches or passes
`end`, the parse succeeds and returns the chunk mapping together with
the (possibly overshot) final offset — no matter how far
`offset + 8 + size` lies beyond `end`.  Out-of-bounds failures arise
only from the data-view reads of the header bytes themselves. -/
theorem parseRIFF_no_bounds_check (buf : List Nat) (fuel : Nat)
    (acc : List (String × ChunkNode)) (offset end_ : Nat) (c : RChunk)
    (hlt : offset < end_) (hc : readChunk buf offset = some c)
    (hid : ¬(c.id = "RIFF" ∨ c.id = "LIST"))
    (hov : end_ ≤ offset + 8 + c.size + c.size % 2) :
    parseRIFFaux buf (fuel + 1) acc offset end_ =
      some (jsSet acc c.id (ChunkNode.leaf c.dataOff c.size),
        offset + 8 + c.size + c.size % 2) := by
  rw [parseRIFFaux_step_leaf buf fuel acc offset end_ c hlt hc hid]
  exact parseRIFFaux_done _ _ _ _ _ (by omega)

/-- C3 (counterexample): an 8-byte buffer holding only the header of a
chunk with declared size 100 parses successfully against `end = 8`
(the declared body would end at byte 108 > 8), returning a normal leaf
mapping instead of failing with a format/bounds error. -/
theorem parseRIFF_oversize_cx :
    readChunk rbufA 0 = some ⟨"abcd", 100, 8, 108⟩ ∧ (8 : Nat) < 108 ∧
    parseRIFF rbufA 0 8 = some ([("abcd", ChunkNode.leaf 8 100)], 108) :=
  ⟨rfl, by decide, rfl⟩

/-- Witness for `parseRIFF_no_bounds_check` on the concrete buffer
`rbufA`. -/
theorem parseRIFF_no_bounds_check_witness :
    parseRIFFaux rbufA 10 [] 0 8 = some ([("abcd", ChunkNode.leaf 8 100)], 108) := by
  have := parseRIFF_no_bounds_check rbufA 9 [] 0 8 ⟨"abcd", 100, 8, 108⟩
    (by decide) rfl (by decide) (by decide)
  simpa [jsSet] using this

/-! ## VLQ lemmas -/

theorem foldl_base128 (gs : List Nat) : ∀ v : Nat,
    gs.foldl (fun a g => a * 128 + g) v = v * 128 ^ gs.length + valGroups gs := by
  induction gs with
  | nil => intro v; simp [valGroups]
  | cons g t ih =>
    intro v
    have h1 := ih (v * 128 + g)
    have h2 := ih g
    calc (g :: t).foldl (fun a g => a * 128 + g) v
        = t.foldl (fun a g => a * 128 + g) (v * 128 + g) := rfl
      _ = (v * 128 + g) * 128 ^ t.length + valGroups t := h1
      _ = v * 128 ^ (g :: t).length + (g * 128 ^ t.length + valGroups t) := by
          simp [List.length_cons, pow_succ]; ring
      _ = v * 128 ^ (g :: t).length + valGroups (g :: t) := by
          have h3 : valGroups (g :: t) = g * 128 ^ t.length + valGroups t := by
            simpa [valGroups] using h2
          rw [h3]

theorem valGroups_cons (g : Nat) (t : List Nat) :
    valGroups (g :: t) = g * 128 ^ t.length + valGroups t := by
  simpa [valGroups] using foldl_base128 t g

theorem valGroups_append_single (xs : List Nat) (g : Nat) :
    valGroups (xs ++ [g]) = valGroups xs * 128 + g := by
  unfold valGroups
  rw [List.foldl_append]
  rfl

theorem toInt32_eq_self (x : Int) (h0 : 0 ≤ x) (h1 : x < 2147483648) :
    toInt32 x = x := by
  unfold toInt32
  rw [Int.emod_eq_of_lt h0 (by omega)]
  simp [h1]

theorem jsShl7_eq (v : Int) (h0 : 0 ≤ v) (h1 : v * 128 < 2147483648) :
    jsShl7 v = v * 128 := by
  have hv : v < 2147483648 := by nlinarith
  unfold jsShl7
  rw [toInt32_eq_self v h0 hv, toInt32_eq_self _ (by positivity) h1]

theorem readVLQaux_eq_list (fuel : Nat) : ∀ (buf : List Nat) (offset bytes : Nat) (v : Int),
    buf.length ≤ offset + bytes + fuel →
    readVLQaux buf offset fuel bytes v =
      (readVLQlist (buf.drop (offset + bytes)) v).map (fun p => (p.1, bytes + p.2)) := by
  induction fuel with
  | zero =>
    intro buf offset bytes v hle
    have hdrop : buf.drop (offset + bytes) = [] := List.drop_eq_nil_of_le (by omega)
    simp [readVLQaux, hdrop, readVLQlist]
  | succ n ih =>
    intro buf offset bytes v hle
    cases hb : getUint8 buf (offset + bytes) with
    | none =>
      have hged : buf.length ≤ offset + bytes := List.get?_eq_none.mp hb
      have hdrop : buf.drop (offset + bytes) = [] := List.drop_eq_nil_of_le hged
      simp [readVLQaux, hb, hdrop, readVLQlist]
    | some b =>
      have hlt : offset + bytes < buf.length := by
        by_contra hge
        rw [getUint8, List.get?_eq_none.mpr (le_of_not_lt hge)] at hb
        exact Option.noConfusion hb
      have hget : buf.get ⟨offset + bytes, hlt⟩ = b := by
        obtain ⟨h, hg⟩ := List.get?_eq_some.mp hb
        exact hg
      have hdrop : buf.drop (offset + bytes) = b :: buf.drop (offset + bytes + 1) := by
        rw [List.drop_eq_get_cons hlt, hget]
      by_cases hcont : b % 256 < 128
      · simp only [readVLQaux, hb, hdrop, readVLQlist, if_pos hcont]
        simp
      · have h1 : offset + (bytes + 1) = offset + bytes + 1 := by omega
        simp only [readVLQaux, hb, if_neg hcont]
        rw [ih buf offset (bytes + 1) _ (by omega), h1, hdrop]
        simp only [readVLQlist, if_neg hcont]
        rcases hrl : readVLQlist (buf.drop (offset + bytes + 1))
            (jsShl7 v + ((b % 128 : Nat) : Int)) with _ | ⟨x, k⟩
        · simp [hrl]
        · simp [hrl]
          omega

theorem readVLQlist_marked : ∀ (gs rest : List Nat) (v : Nat),
    gs ≠ [] → (∀ g ∈ gs, g < 128) →
    v * 128 ^ gs.length + valGroups gs < 2147483648 →
    readVLQlist (vlqMark gs ++ rest) (v : Int) =
      some (((v * 128 ^ gs.length + valGroups gs : Nat) : Int), gs.length) := by
  intro gs
  induction gs with
  | nil => intro rest v h; exact absurd rfl h
  | cons g t ih =>
    intro rest v hne hsm hbound
    have hg : g < 128 := hsm g (by simp)
    cases t with
    | nil =>
      have h128 : g % 128 = g := Nat.mod_eq_of_lt hg
      have hbnat : v * 128 + g < 2147483648 := by
        simpa [valGroups] using hbound
      have hshl : jsShl7 (v : Int) = (v : Int) * 128 := by
        apply jsShl7_eq _ (by positivity)
        exact_mod_cast lt_of_le_of_lt (Nat.le_add_right (v * 128) g) hbnat
      show readVLQlist (g :: rest) (v : Int) = _
      simp only [readVLQlist, if_pos (show g % 256 < 128 from by omega), h128, hshl]
      have hval : valGroups [g] = g := by simp [valGroups]
      simp only [List.length_singleton, pow_one, hval]
      exact congrArg (fun z => some (z, 1)) (by push_cast; ring)
    | cons g2 t2 =>
      have hmark : vlqMark (g :: g2 :: t2) = (g + 128) :: vlqMark (g2 :: t2) := rfl
      have h2 : (g + 128) % 128 = g := by
        rw [Nat.add_mod_right, Nat.mod_eq_of_lt hg]
      have hL : (g :: g2 :: t2).length = (g2 :: t2).length + 1 := by simp
      have hmono : v * 128 ≤ v * 128 ^ ((g2 :: t2).length + 1) := by
        apply Nat.mul_le_mul_left
        calc (128 : Nat) = 128 ^ 1 := by norm_num
        _ ≤ 128 ^ ((g2 :: t2).length + 1) := Nat.pow_le_pow_right (by norm_num) (by omega)
      have hbnat : v * 128 < 2147483648 := by
        rw [hL] at hbound
        omega
      have hshl : jsShl7 (v : Int) = (v : Int) * 128 := by
        apply jsShl7_eq _ (by positivity)
        exact_mod_cast hbnat
      have harith : (v * 128 + g) * 128 ^ (g2 :: t2).length + valGroups (g2 :: t2) =
          v * 128 ^ (g :: g2 :: t2).length + valGroups (g :: g2 :: t2) := by
        rw [valGroups_cons g (g2 :: t2)]
        simp only [List.length_cons]
        ring
      rw [hmark, List.cons_append]
      simp only [readVLQlist, if_neg (show ¬(g + 128) % 256 < 128 from by omega), h2, hshl]
      have hcast : (v : Int) * 128 + ((g : Nat) : Int) = ((v * 128 + g : Nat) : Int) := by
        push_cast; ring
      rw [hcast, ih rest (v * 128 + g) (by simp) (fun x hx => hsm x (by simp [hx]))
        (by rw [harith]; exact hbound)]
      simp only [Option.map_some']
      rw [harith]
      rw [hL]

theorem vlqGroupsF_spec (fuel : Nat) : ∀ n : Nat, n < 128 ^ (fuel + 1) →
    (∀ g ∈ vlqGroupsF fuel n, g < 128) ∧
    valGroups (vlqGroupsF fuel n) = n ∧ vlqGroupsF fuel n ≠ [] := by
  induction fuel with
  | zero =>
    intro n h
    refine ⟨?_, by simp [vlqGroupsF, valGroups], by simp [vlqGroupsF]⟩
    intro g hg
    simp only [vlqGroupsF, List.mem_singleton] at hg
    subst hg
    simpa using h
  | succ f ih =>
    intro n h
    by_cases hn : n < 128
    · refine ⟨?_, by simp [vlqGroupsF, hn, valGroups], by simp [vlqGroupsF, hn]⟩
      intro g hg
      simp only [vlqGroupsF, if_pos hn, List.mem_singleton] at hg
      subst hg
      exact hn
    · have hrec : vlqGroupsF (f + 1) n = vlqGroupsF f (n / 128) ++ [n % 128] := by
        simp [vlqGroupsF, hn]
      have hd : n / 128 < 128 ^ (f + 1) := by
        rw [Nat.div_lt_iff_lt_mul (by norm_num)]
        calc n < 128 ^ (f + 1 + 1) := h
        _ = 128 ^ (f + 1) * 128 := by ring
      obtain ⟨ha, hv, hne⟩ := ih (n / 128) hd
      refine ⟨?_, ?_, ?_⟩
      · intro g hg
        rw [hrec] at hg
        rcases List.mem_append.mp hg with hg1 | hg1
        · exact ha g hg1
        · simp only [List.mem_singleton] at hg1
          subst hg1
          exact Nat.mod_lt n (by norm_num)
      · rw [hrec, valGroups_append_single, hv]
        omega
      · rw [hrec]
        simp

theorem lt_pow128_succ (n : Nat) : n < 128 ^ (n + 1) := by
  calc n < 2 ^ n := Nat.lt_two_pow n
  _ ≤ 128 ^ n := Nat.pow_le_pow_left (by norm_num) n
  _ ≤ 128 ^ (n + 1) := Nat.pow_le_pow_right (by norm_num) (Nat.le_succ n)

theorem vlqMark_length : ∀ gs : List Nat, (vlqMark gs).length = gs.length := by
  intro gs
  induction gs with
  | nil => rfl
  | cons x t ih =>
    cases t with
    | nil => rfl
    | cons y t2 =>
      show ((x + 128) :: vlqMark (y :: t2)).length = (x :: y :: t2).length
      simp only [List.length_cons] at ih ⊢
      omega

/-- C7 (amended): VLQ decoding round-trips the (spec-modelled)
encoding for every integer `0 ≤ n < 2^31`: `readVLQ` on `encodeVLQ n`
reproduces the original value and reports exactly the encoding's
length as the bytes consumed.  From `2^31` on, the JS 32-bit shift
inside `readVLQ` wraps (see `readVLQ_overflow_cx`). -/
theorem readVLQ_roundtrip (n : Nat) (hn : n < 2147483648) :
    readVLQ (encodeVLQ n) 0 = some ((n : Int), (encodeVLQ n).length) := by
  obtain ⟨ha, hv, hne⟩ := vlqGroupsF_spec n n (lt_pow128_succ n)
  have hgs : vlqGroups n = vlqGroupsF n n := rfl
  have henc : encodeVLQ n = vlqMark (vlqGroups n) := rfl
  have hbound : 0 * 128 ^ (vlqGroups n).length + valGroups (vlqGroups n) < 2147483648 := by
    rw [hgs, hv]
    omega
  have hmain := readVLQlist_marked (vlqGroups n) [] 0 (hgs ▸ hne) (hgs ▸ ha) hbound
  unfold readVLQ
  rw [readVLQaux_eq_list ((encodeVLQ n).length + 1) (encodeVLQ n) 0 0 0 (by omega)]
  have hdrop : (encodeVLQ n).drop (0 + 0) = vlqMark (vlqGroups n) ++ [] := by
    simp [henc]
  rw [hdrop]
  have hzero : ((0 : Nat) : Int) = (0 : Int) := rfl
  rw [hzero] at hmain
  rw [hmain]
  have hval : 0 * 128 ^ (vlqGroups n).length + valGroups (vlqGroups n) = n := by
    rw [hgs, hv]
    omega
  have hlen : (vlqGroups n).length = (encodeVLQ n).length := by
    rw [henc, vlqMark_length]
  rw [hval, hlen]
  simp

/-- C7 (counterexample): `2^31` is representable by the encoding (five
bytes `88 80 80 80 00`), but decoding returns the wrapped value
`-2^31 ≠ 2^31`, because `value << 7` in `readVLQ` is a signed 32-bit
shift. -/
theorem readVLQ_overflow_cx :
    encodeVLQ 2147483648 = vlqOverflowBytes ∧
    readVLQ vlqOverflowBytes 0 = some (-2147483648, 5) ∧
    (-2147483648 : Int) ≠ (2147483648 : Int) := by
  refine ⟨by decide, by decide, by decide⟩

/-- Witness for `readVLQ_roundtrip` at the spec's example value 128
(encoded `81 00`, decoded back in 2 bytes). -/
theorem readVLQ_roundtrip_witness :
    readVLQ (encodeVLQ 128) 0 = some ((128 : Int), (encodeVLQ 128).length) :=
  readVLQ_roundtrip 128 (by norm_num)

/-! ## Record-table lemmas -/

theorem readPresetList_length (buf : List Nat) (phdrOff pbagOff pgenOff : Nat) :
    ∀ (count i : Nat) (ps : List Preset),
    readPresetList buf phdrOff pbagOff pgenOff i count = some ps → ps.length = count := by
  intro count
  induction count with
  | zero =>
    intro i ps h
    simp only [readPresetList, Option.some.injEq] at h
    rw [← h]
    rfl
  | succ k ih =>
    intro i ps h
    simp only [readPresetList, Option.bind_eq_bind, Option.bind_eq_some,
      Option.pure_def, Option.some.injEq] at h
    obtain ⟨nm, hnm, prog, hprog, bank, hbank, bag, hbag, nbag, hnbag, zs, hzs,
      rest, hrest, hps⟩ := h
    rw [← hps]
    simp [ih (i + 1) rest hrest]

theorem readInstList_length (buf : List Nat) (instOff ibagOff igenOff : Nat) :
    ∀ (count i : Nat) (is2 : List Instrument),
    readInstList buf instOff ibagOff igenOff i count = some is2 → is2.length = count := by
  intro count
  induction count with
  | zero =>
    intro i is2 h
    simp only [readInstList, Option.some.injEq] at h
    rw [← h]
    rfl
  | succ k ih =>
    intro i is2 h
    simp only [readInstList, Option.bind_eq_bind, Option.bind_eq_some,
      Option.pure_def, Option.some.injEq] at h
    obtain ⟨nm, hnm, bag, hbag, nbag, hnbag, zs, hzs, rest, hrest, hps⟩ := h
    rw [← hps]
    simp [ih (i + 1) rest hrest]

/-- C8: decoding an instrument or preset header table excludes the
trailing sentinel record: whenever the parse succeeds, a preset table
of `38 * n` bytes yields exactly `n - 1` presets and an instrument
table of `22 * m` bytes yields exactly `m - 1` instruments (the
sentinel is consulted only for the terminal bag-index subtraction). -/
theorem sentinel_record_excluded :
    (∀ (buf : List Nat) (phdrOff pbagOff pgenOff n : Nat) (ps : List Preset),
      parsePresets buf phdrOff (38 * n) pbagOff pgenOff = some ps → ps.length = n - 1) ∧
    (∀ (buf : List Nat) (instOff ibagOff igenOff m : Nat) (is2 : List Instrument),
      parseInstruments buf instOff (22 * m) ibagOff igenOff = some is2 → is2.length = m - 1) := by
  constructor
  · intro buf phdrOff pbagOff pgenOff n ps h
    unfold parsePresets at h
    rw [Nat.mul_div_cancel_left n (by norm_num)] at h
    exact readPresetList_length buf phdrOff pbagOff pgenOff (n - 1) 0 ps h
  · intro buf instOff ibagOff igenOff m is2 h
    unfold parseInstruments at h
    rw [Nat.mul_div_cancel_left m (by norm_num)] at h
    exact readInstList_length buf instOff ibagOff igenOff (m - 1) 0 is2 h

/-- Witness for `sentinel_record_excluded`: an all-zero preset table of
size `38 * 5` decodes to exactly 4 presets. -/
theorem sentinel_record_excluded_witness :
    ∃ ps : List Preset,
      parsePresets (List.replicate 190 0) 0 (38 * 5) 0 0 = some ps ∧ ps.length = 5 - 1 :=
  ⟨List.replicate 4 ⟨"", 0, 0, []⟩, rfl,
    sentinel_record_excluded.1 (List.replicate 190 0) 0 0 0 5 _ rfl⟩

/-! ## Zone-resolution lemmas -/

theorem presetZoneStep_none (samples : List Sample) (instruments : List Instrument)
    (key vel : Nat) (z : Zone) :
    presetZoneStep samples instruments key vel none z = none := rfl

theorem foldl_presetZoneStep_none (samples : List Sample)
    (instruments : List Instrument) (key vel : Nat) (zs : List Zone) :
    zs.foldl (presetZoneStep samples instruments key vel) none = none := by
  induction zs with
  | nil => rfl
  | cons z t ih =>
    rw [List.foldl_cons, presetZoneStep_none]
    exact ih

theorem presetZoneStep_bad (samples : List Sample) (instruments : List Instrument)
    (key vel : Nat) (ms : List ZoneMatch) (z : Zone) (i : Int)
    (hm : zoneMatches z key vel = true) (hi : z.instrumentID = some i)
    (hidx : jsIndex instruments i = none) :
    presetZoneStep samples instruments key vel (some ms) z = none := by
  simp [presetZoneStep, hm, hi, hidx]

theorem foldl_presetZoneStep_abort (samples : List Sample)
    (instruments : List Instrument) (key vel : Nat) :
    ∀ (zs : List Zone) (acc : Option (List ZoneMatch)) (z : Zone) (i : Int),
    z ∈ zs → zoneMatches z key vel = true → z.instrumentID = some i →
    jsIndex instruments i = none →
    zs.foldl (presetZoneStep samples instruments key vel) acc = none := by
  intro zs
  induction zs with
  | nil =>
    intro acc z i hz
    exact absurd hz (List.not_mem_nil z)
  | cons z0 t ih =>
    intro acc z i hz hm hi hidx
    rw [List.foldl_cons]
    rcases List.mem_cons.mp hz with rfl | hz2
    · cases acc with
      | none =>
        rw [presetZoneStep_none]
        exact foldl_presetZoneStep_none samples instruments key vel t
      | some ms =>
        rw [presetZoneStep_bad samples instruments key vel ms z i hm hi hidx]
        exact foldl_presetZoneStep_none samples instruments key vel t
    · exact ih _ z i hz2 hm hi hidx

/-- C4 (amended): a matching preset zone whose instrument index is out
of range of the instrument table makes the *entire* `getZonesForNote`
call throw a TypeError (modelled `none`), discarding the matches of all
valid zones, instead of skipping just that zone; an out-of-range
instrument-zone *sample* index, by contrast, is not detected at
resolution time — the zone still contributes a match whose sample is
`undefined` (`none`). -/
theorem zone_resolution_error_scope :
    (∀ (samples : List Sample) (instruments : List Instrument) (preset : Preset)
      (key vel : Nat) (z : Zone) (i : Int),
      z ∈ preset.zones → zoneMatches z key vel = true → z.instrumentID = some i →
      jsIndex instruments i = none →
      getZonesForNote samples instruments preset key vel = none) ∧
    (∀ (samples : List Sample) (instruments : List Instrument) (nm : String)
      (prog bank key vel : Nat) (pz iz : Zone) (i j : Int) (inst : Instrument),
      zoneMatches pz key vel = true → pz.instrumentID = some i →
      jsIndex instruments i = some inst → inst.zones = [iz] →
      zoneMatches iz key vel = true → iz.sampleID = some j →
      jsIndex samples j = none →
      getZonesForNote samples instruments ⟨nm, prog, bank, [pz]⟩ key vel =
        some [⟨iz, none, pz⟩]) := by
  constructor
  · intro samples instruments preset key vel z i hz hm hi hidx
    exact foldl_presetZoneStep_abort samples instruments key vel
      preset.zones (some []) z i hz hm hi hidx
  · intro samples instruments nm prog bank key vel pz iz i j inst hm hi hinst hzs him hsid hsidx
    show List.foldl (presetZoneStep samples instruments key vel) (some []) [pz] =
      some [⟨iz, none, pz⟩]
    rw [List.foldl_cons, List.foldl_nil]
    simp only [presetZoneStep, Option.some_bind, hm, if_true, hi, hinst, hzs]
    simp [instZoneScan, him, hsid, hsidx]

/-- C4 (counterexample): on its own, the valid zone of `presetBoth`
yields one match, but resolving `presetBoth` — whose other zone holds a
dangling instrument index — returns `none` (a thrown TypeError) rather
than skipping the bad zone and returning that match. -/
theorem zone_resolution_cx :
    getZonesForNote [sampleA] [instA] presetGood 60 100 =
      some [⟨izA, some sampleA, pzGood⟩] ∧
    getZonesForNote [sampleA] [instA] presetBoth 60 100 = none := by
  refine ⟨by decide, by decide⟩

/-- Witness for `zone_resolution_error_scope` at concrete tables. -/
theorem zone_resolution_error_scope_witness :
    getZonesForNote [sampleA] [instA] presetBoth 60 100 = none ∧
    getZonesForNote [] [instA] ⟨"preset", 0, 0, [pzGood]⟩ 60 100 =
      some [⟨izA, none, pzGood⟩] :=
  ⟨zone_resolution_error_scope.1 [sampleA] [instA] presetBoth 60 100 pzBad 5
      (by decide) (by decide) (by decide) (by decide),
    zone_resolution_error_scope.2 [] [instA] "preset" 0 0 60 100 pzGood izA 0 0 instA
      (by decide) (by decide) (by decide) (by decide) (by decide) (by decide) (by decide)⟩

/-! ## Effective-generator lemmas -/

theorem lookupGen_upsert_same (g : Generator) : ∀ m : List (Nat × Int),
    lookupGen (upsertGen m g) g.op = some ((lookupGen m g.op).getD 0 + g.amount) := by
  intro m
  induction m with
  | nil => simp [upsertGen, lookupGen]
  | cons p t ih =>
    by_cases hp : p.1 = g.op
    · simp [upsertGen, hp, lookupGen]
    · simp only [upsertGen, if_neg hp]
      simpa [lookupGen, List.find?_cons, hp] using ih

theorem lookupGen_upsert_other (g : Generator) (op : Nat) (hop : g.op ≠ op) :
    ∀ m : List (Nat × Int), lookupGen (upsertGen m g) op = lookupGen m op := by
  intro m
  induction m with
  | nil => simp [upsertGen, lookupGen, hop]
  | cons p t ih =>
    by_cases hp : p.1 = g.op
    · have hpo : ¬ p.1 = op := by rw [hp]; exact hop
      simp [upsertGen, hp, lookupGen, hpo, hop]
    · simp only [upsertGen, if_neg hp]
      by_cases hpo : p.1 = op
      · simp [lookupGen, List.find?_cons, hpo]
      · simpa [lookupGen, List.find?_cons, hpo] using ih

theorem sumOp_cons (g : Generator) (t : List Generator) (op : Nat) :
    sumOp (g :: t) op = (if g.op = op then g.amount else 0) + sumOp t op := by
  by_cases hg : g.op = op <;> simp [sumOp, List.filter_cons, hg]

theorem sumOp_eq_zero (t : List Generator) (op : Nat) (h : hasOp t op = false) :
    sumOp t op = 0 := by
  have : t.filter (fun g => g.op = op) = [] := by
    rw [List.filter_eq_nil]
    intro g hg
    intro hcontra
    rw [hasOp, List.any_eq_false] at h
    exact h g hg hcontra
  simp [sumOp, this]

theorem lookupGen_foldl_upsert (l : List Generator) : ∀ (m : List (Nat × Int)) (op : Nat),
    lookupGen (l.foldl upsertGen m) op =
      if hasOp l op then some ((lookupGen m op).getD 0 + sumOp l op)
      else lookupGen m op := by
  induction l with
  | nil => intro m op; simp [hasOp, sumOp]
  | cons g t ih =>
    intro m op
    rw [List.foldl_cons, ih (upsertGen m g) op]
    by_cases hg : g.op = op
    · subst hg
      have hsame := lookupGen_upsert_same g m
      have hhas : hasOp (g :: t) g.op = true := by simp [hasOp]
      rw [hhas, if_pos rfl]
      by_cases ht : hasOp t g.op
      · rw [if_pos ht, hsame, sumOp_cons, if_pos rfl]
        simp only [Option.getD_some]
        exact congrArg some (by ring)
      · rw [if_neg ht, hsame, sumOp_cons, if_pos rfl,
          sumOp_eq_zero t g.op (by simpa using ht)]
        exact congrArg some (by ring)
    · have hother := lookupGen_upsert_other g op hg m
      have hhas : hasOp (g :: t) op = hasOp t op := by simp [hasOp, hg]
      rw [hhas, hother, sumOp_cons, if_neg hg]
      simp

theorem lookupGen_effectiveGens (izgens pzgens : List Generator) (op : Nat) :
    lookupGen (effectiveGens izgens pzgens) op =
      if hasOp izgens op || hasOp pzgens op then
        some (sumOp izgens op + sumOp pzgens op)
      else none := by
  unfold effectiveGens
  rw [lookupGen_foldl_upsert]
  have hhas : hasOp (izgens ++ pzgens) op = (hasOp izgens op || hasOp pzgens op) := by
    simp [hasOp]
  have hsum : sumOp (izgens ++ pzgens) op = sumOp izgens op + sumOp pzgens op := by
    simp [sumOp, List.filter_append]
  rw [hhas, hsum]
  rcases h : hasOp izgens op || hasOp pzgens op with _ | _
  · simp [lookupGen]
  · simp [lookupGen]

/-- C1 (amended): the complete aggregation outcome of `playNote` for a
matched zone pair, for *every* generator operator the `switch` carries.
Each resolved parameter is determined by `resolvedAmount`: when either
zone mentions the operator, the value assigned is derived from the sum
of the instrument-zone amounts plus the preset-zone amounts *alone*
(through that operator's transfer — identity for plain amounts,
`2^(c/1200)` for time-cents, `/10` for attenuation), and this sum
*replaces* the operator's fixed default (e.g. 13500 for the filter
cutoff, `-12000` time-cents for the envelope times, 100 for scale
tuning, 1000 for the modulation sustain); the default survives only
when neither zone mentions the operator.  The sample-address operators
(0, 1, 2, 3 and coarse 4, 12, 14, 18) add their resolved sums onto the
`Sample` record's offset fields.  Summation onto the default, as the
claim states it, happens for no operator (see
`generator_sum_overrides_default_cx`). -/
theorem generator_sum_overrides_default (s : Sample) (izgens pzgens : List Generator) :
    aggregateGens s izgens pzgens =
      ({ s with
          start := s.start + resolvedAmount izgens pzgens 0 0
            + resolvedAmount izgens pzgens 4 0 * 32768
          stop := s.stop + resolvedAmount izgens pzgens 1 0
            + resolvedAmount izgens pzgens 12 0 * 32768
          startLoop := s.startLoop + resolvedAmount izgens pzgens 2 0
            + resolvedAmount izgens pzgens 14 0 * 32768
          endLoop := s.endLoop + resolvedAmount izgens pzgens 3 0
            + resolvedAmount izgens pzgens 18 0 * 32768 },
        { rootKey := resolvedAmount izgens pzgens 58 (s.originalKey : Int)
          fineTune := resolvedAmount izgens pzgens 52 0
          coarseTune := resolvedAmount izgens pzgens 51 0
          scaleTune := resolvedAmount izgens pzgens 56 100
          atten := ((resolvedAmount izgens pzgens 48 0 : Int) : ℚ) / 10
          pan := ((resolvedAmount izgens pzgens 17 0 : Int) : ℚ)
          sampleModes := resolvedAmount izgens pzgens 54 0
          reverbSend := resolvedAmount izgens pzgens 16 0
          chorusSend := resolvedAmount izgens pzgens 15 0
          filterFc := ((resolvedAmount izgens pzgens 8 13500 : Int) : ℚ)
          filterQ := resolvedAmount izgens pzgens 9 0
          modLfoToPitch := resolvedAmount izgens pzgens 5 0
          vibLfoToPitch := ((resolvedAmount izgens pzgens 6 0 : Int) : ℚ)
          modEnvToPitch := resolvedAmount izgens pzgens 7 0
          modLfoToFilterFc := resolvedAmount izgens pzgens 10 0
          modEnvToFilterFc := resolvedAmount izgens pzgens 11 0
          modLfoToVolume := resolvedAmount izgens pzgens 13 0
          delayVolEnv := pow2cents (resolvedAmount izgens pzgens 33 (-12000))
          attackVolEnv := pow2cents (resolvedAmount izgens pzgens 34 (-12000))
          holdVolEnv := pow2cents (resolvedAmount izgens pzgens 35 (-12000))
          decayVolEnv := pow2cents (resolvedAmount izgens pzgens 36 (-12000))
          sustainVolEnv := resolvedAmount izgens pzgens 37 0
          releaseVolEnv := pow2cents (resolvedAmount izgens pzgens 38 (-12000))
          delayModEnv := pow2cents (resolvedAmount izgens pzgens 25 (-12000))
          attackModEnv := pow2cents (resolvedAmount izgens pzgens 26 (-12000))
          holdModEnv := pow2cents (resolvedAmount izgens pzgens 27 (-12000))
          decayModEnv := pow2cents (resolvedAmount izgens pzgens 28 (-12000))
          sustainModEnv := resolvedAmount izgens pzgens 29 1000
          releaseModEnv := pow2cents (resolvedAmount izgens pzgens 30 (-12000))
          delayModLfo := pow2cents (resolvedAmount izgens pzgens 21 (-12000))
          freqModLfo := resolvedAmount izgens pzgens 22 0
          delayVibLfo := pow2cents (resolvedAmount izgens pzgens 23 (-12000))
          freqVibLfo := resolvedAmount izgens pzgens 24 0 }) := by
  have hfst : (aggregateGens s izgens pzgens).1 =
      { s with
        start := s.start + resolvedAmount izgens pzgens 0 0
          + resolvedAmount izgens pzgens 4 0 * 32768
        stop := s.stop + resolvedAmount izgens pzgens 1 0
          + resolvedAmount izgens pzgens 12 0 * 32768
        startLoop := s.startLoop + resolvedAmount izgens pzgens 2 0
          + resolvedAmount izgens pzgens 14 0 * 32768
        endLoop := s.endLoop + resolvedAmount izgens pzgens 3 0
          + resolvedAmount izgens pzgens 18 0 * 32768 } := by
    simp only [aggregateGens]
    simp only [Sample.mk.injEq]
    repeat' apply And.intro
    all_goals simp only [lookupGen_effectiveGens, resolvedAmount]
    all_goals split_ifs <;> simp
  have hsnd : (aggregateGens s izgens pzgens).2 =
      { rootKey := resolvedAmount izgens pzgens 58 (s.originalKey : Int)
        fineTune := resolvedAmount izgens pzgens 52 0
        coarseTune := resolvedAmount izgens pzgens 51 0
        scaleTune := resolvedAmount izgens pzgens 56 100
        atten := ((resolvedAmount izgens pzgens 48 0 : Int) : ℚ) / 10
        pan := ((resolvedAmount izgens pzgens 17 0 : Int) : ℚ)
        sampleModes := resolvedAmount izgens pzgens 54 0
        reverbSend := resolvedAmount izgens pzgens 16 0
        chorusSend := resolvedAmount izgens pzgens 15 0
        filterFc := ((resolvedAmount izgens pzgens 8 13500 : Int) : ℚ)
        filterQ := resolvedAmount izgens pzgens 9 0
        modLfoToPitch := resolvedAmount izgens pzgens 5 0
        vibLfoToPitch := ((resolvedAmount izgens pzgens 6 0 : Int) : ℚ)
        modEnvToPitch := resolvedAmount izgens pzgens 7 0
        modLfoToFilterFc := resolvedAmount izgens pzgens 10 0
        modEnvToFilterFc := resolvedAmount izgens pzgens 11 0
        modLfoToVolume := resolvedAmount izgens pzgens 13 0
        delayVolEnv := pow2cents (resolvedAmount izgens pzgens 33 (-12000))
        attackVolEnv := pow2cents (resolvedAmount izgens pzgens 34 (-12000))
        holdVolEnv := pow2cents (resolvedAmount izgens pzgens 35 (-12000))
        decayVolEnv := pow2cents (resolvedAmount izgens pzgens 36 (-12000))
        sustainVolEnv := resolvedAmount izgens pzgens 37 0
        releaseVolEnv := pow2cents (resolvedAmount izgens pzgens 38 (-12000))
        delayModEnv := pow2cents (resolvedAmount izgens pzgens 25 (-12000))
        attackModEnv := pow2cents (resolvedAmount izgens pzgens 26 (-12000))
        holdModEnv := pow2cents (resolvedAmount izgens pzgens 27 (-12000))
        decayModEnv := pow2cents (resolvedAmount izgens pzgens 28 (-12000))
        sustainModEnv := resolvedAmount izgens pzgens 29 1000
        releaseModEnv := pow2cents (resolvedAmount izgens pzgens 30 (-12000))
        delayModLfo := pow2cents (resolvedAmount izgens pzgens 21 (-12000))
        freqModLfo := resolvedAmount izgens pzgens 22 0
        delayVibLfo := pow2cents (resolvedAmount izgens pzgens 23 (-12000))
        freqVibLfo := resolvedAmount izgens pzgens 24 0 } := by
    simp only [aggregateGens]
    simp only [VoiceParams.mk.injEq]
    repeat' apply And.intro
    all_goals simp only [lookupGen_effectiveGens, resolvedAmount]
    all_goals split_ifs <;> simp
  calc aggregateGens s izgens pzgens
      = ((aggregateGens s izgens pzgens).1, (aggregateGens s izgens pzgens).2) := rfl
    _ = _ := by rw [hfst, hsnd]

/-- C1 (counterexample): with instrument-zone amount `-2000` and
preset-zone amount `-500` on the filter-cutoff operator, `playNote`
resolves the cutoff to `-2500` and not to the claimed
`13500 - 2000 - 500 = 11000` cents. -/
theorem generator_sum_overrides_default_cx :
    (aggregateGens sampleA [⟨8, -2000⟩] [⟨8, -500⟩]).2.filterFc = -2500 ∧
    (13500 : ℚ) + (-2000) + (-500) = 11000 ∧
    (aggregateGens sampleA [⟨8, -2000⟩] [⟨8, -500⟩]).2.filterFc ≠ 11000 := by
  refine ⟨by decide, by norm_num, by decide⟩

/-- C2 (code bug): triggering a note whose matched instrument zone
carries a `startAddrsOffset` generator (op 0, amount 5) executes
`sample.start += 5` on the parsed `Sample` record itself: the table
entry changes from 100 to 105, and an identical second trigger drifts
it further to 110 — the parsed tables are not immutable under
`playNote`, and two identical triggers do not resolve identical
parameters. -/
theorem playNote_mutates_sample_table :
    sampleA.start = 100 ∧
    (aggregateGens sampleA [⟨0, 5⟩] []).1.start = 105 ∧
    (aggregateGens (aggregateGens sampleA [⟨0, 5⟩] []).1 [⟨0, 5⟩] []).1.start = 110 := by
  refine ⟨rfl, by decide, by decide⟩

/-- C5 (code bug): with an all-defaults matched pair, only the volume
envelope's delay and attack are floored to the `minTime` minimum of
`0.001 s`; the volume-envelope hold (shown equal to
`2^(-12000/1200) = 1/1024 s`) as well as its release and both LFO
delays all stay strictly below the minimum — the source comment
`// etc for others` is not implemented, so not every envelope/LFO time
parameter is floored to a positive minimum as claimed. -/
theorem envelope_time_clamp_partial :
    (resolveVoiceParams sampleA [] [] 127 initChannelState).2.delayVolEnv = minTime ∧
    (resolveVoiceParams sampleA [] [] 127 initChannelState).2.attackVolEnv = minTime ∧
    (resolveVoiceParams sampleA [] [] 127 initChannelState).2.holdVolEnv = 1 / 1024 ∧
    (resolveVoiceParams sampleA [] [] 127 initChannelState).2.holdVolEnv < minTime ∧
    (resolveVoiceParams sampleA [] [] 127 initChannelState).2.releaseVolEnv < minTime ∧
    (resolveVoiceParams sampleA [] [] 127 initChannelState).2.delayModLfo < minTime ∧
    (resolveVoiceParams sampleA [] [] 127 initChannelState).2.delayVibLfo < minTime := by
  refine ⟨?_, ?_, ?_, ?_, ?_, ?_, ?_⟩ <;>
    norm_num [resolveVoiceParams, aggregateGens, applyDefaultMods, clampTimes,
      effectiveGens, upsertGen, lookupGen, pow2cents, minTime, List.foldl,
      List.find?, Int.toNat, max_def]
